import Mathlib

/-!
Verification of the motion-energy filter engine of the Waskom JVision 2018
tutorial repository (Adelson & Bergen 1985 spatiotemporal energy model).

The notebook in the repository imports the numerical core from the modules
`motionenergy` and `stimulus`, whose sources are not part of the repository
snapshot; those core functions are modelled here from the specification
(section 4 of the spec), as noted in each doc comment.  The helper
`centered_colormap` is defined in the notebook itself and is embedded
directly from that source.

Real-valued arrays are embedded over ℝ; a 3-D array carries its shape
explicitly and its data as a total function, meaningful inside the shape.
-/

namespace MotionEnergy

/-- A 3-D real array (x, y, t) with explicit shape.  Values of `data` outside
the shape are irrelevant; reads during convolution go through the zero-padded
accessor `Array3.pad`. -/
structure Array3 where
  nx : ℕ
  ny : ℕ
  nt : ℕ
  data : ℕ → ℕ → ℕ → ℝ

/-- The shape of a 3-D array as an (nx, ny, nt) triple. -/
def Array3.shape (a : Array3) : ℕ × ℕ × ℕ := (a.nx, a.ny, a.nt)

/-- Zero-padded read at integer coordinates: values outside the array
extent are 0 (the zero-padded boundary handling of the convolution engine). -/
noncomputable def Array3.pad (a : Array3) (i j k : ℤ) : ℝ :=
  if 0 ≤ i ∧ i < a.nx ∧ 0 ≤ j ∧ j < a.ny ∧ 0 ≤ k ∧ k < a.nt then
    a.data i.toNat j.toNat k.toNat
  else 0

/-- Modelled from the spec: the linear, zero-padded 3-D convolution used by
the convolution engine (section 4.6; the `motionenergy` module is not in the
repository snapshot).  The output has the shape of the movie `m`; each output
sample is the sum over the filter support of filter value times the
zero-padded movie value at the offset position. -/
noncomputable def conv3 (m f : Array3) : Array3 where
  nx := m.nx
  ny := m.ny
  nt := m.nt
  data := fun i j k =>
    ∑ a ∈ Finset.range f.nx, ∑ b ∈ Finset.range f.ny, ∑ c ∈ Finset.range f.nt,
      f.data a b c * m.pad ((i : ℤ) - a) ((j : ℤ) - b) ((k : ℤ) - c)

/-- Modelled from the spec: `filter_grid` (section 4.1, Grid Generator; the
`motionenergy` module is not in the repository snapshot).  Sample `i` of a
grid of `n` samples spaced `d` apart: starting at zero for a causal/time
axis, or symmetric about zero when `center` is set. -/
noncomputable def filter_grid (n : ℕ) (d : ℝ) (center : Bool) : ℕ → ℝ :=
  fun i =>
    if center then (i : ℝ) * d - ((n : ℝ) - 1) * d / 2
    else (i : ℝ) * d

/-- Modelled from the spec: `cauchy(axis, sigma_c, order)` (section 4.2; the
`motionenergy` module is not in the repository snapshot).  At position `x`,
with α = arctan(x / σ_c), the even filter is cos(α)^order · cos(order·α) and
the odd filter is cos(α)^order · sin(order·α); the pair is returned as
(even, odd).  The notebook uses order = 4. -/
noncomputable def cauchy (x sigma_c : ℝ) (order : ℕ) : ℝ × ℝ :=
  let α := Real.arctan (x / sigma_c)
  (Real.cos α ^ order * Real.cos ((order : ℝ) * α),
   Real.cos α ^ order * Real.sin ((order : ℝ) * α))

/-- Modelled from the spec: `gaussian_envelope` (section 4.2; the
`motionenergy` module is not in the repository snapshot): exp(−x²/(2σ_g²)). -/
noncomputable def gaussian_envelope (x sigma_g : ℝ) : ℝ :=
  Real.exp (-(x ^ 2) / (2 * sigma_g ^ 2))

/-- Modelled from the spec: `temporal_impulse_response(t, order, k)`
(section 4.3; the `motionenergy` module is not in the repository snapshot):
(kt)^order · exp(−kt) · [1/order! − (kt)²/(order+2)!] for t ≥ 0, and 0 for
t < 0 (causal response). -/
noncomputable def temporal_impulse_response (t : ℝ) (order : ℕ) (k : ℝ) : ℝ :=
  if t < 0 then 0
  else (k * t) ^ order * Real.exp (-(k * t)) *
    (1 / (Nat.factorial order : ℝ) - (k * t) ^ 2 / (Nat.factorial (order + 2) : ℝ))

/-- Modelled from the spec: the even 2-D spatial filter component
f₁(x, y) = cos⁴(α)·cos(4α)·exp(−y²/(2σ_g²)) rotated rigidly by the direction
angle θ (sections 4.2 and 4.4): the filter evaluated at the coordinates
rotated back by θ. -/
noncomputable def spatial_even (sigma_c sigma_g θ x y : ℝ) : ℝ :=
  (cauchy (x * Real.cos θ + y * Real.sin θ) sigma_c 4).1 *
    gaussian_envelope (-x * Real.sin θ + y * Real.cos θ) sigma_g

/-- Modelled from the spec: the odd 2-D spatial filter component
f₂(x, y) = cos⁴(α)·sin(4α)·exp(−y²/(2σ_g²)) rotated rigidly by θ. -/
noncomputable def spatial_odd (sigma_c sigma_g θ x y : ℝ) : ℝ :=
  (cauchy (x * Real.cos θ + y * Real.sin θ) sigma_c 4).2 *
    gaussian_envelope (-x * Real.sin θ + y * Real.cos θ) sigma_g

/-- A Motion Filter Set: the four 3-D space-time filters (even-preferred,
odd-preferred, even-null, odd-null) of the data model (spec section 3). -/
structure FilterSet where
  even_p : Array3
  odd_p : Array3
  even_n : Array3
  odd_n : Array3

/-- The four filters of a set, in the fixed order even-preferred,
odd-preferred, even-null, odd-null. -/
def FilterSet.toList (fs : FilterSet) : List Array3 :=
  [fs.even_p, fs.odd_p, fs.even_n, fs.odd_n]

/-- Modelled from the spec: `motion_filters` (section 4.4, Filter Composer;
the `motionenergy` module is not in the repository snapshot).  The spatial
even/odd filters and Gaussian envelope are sampled on a centred grid of the
requested spatial extent, rotated by θ; the two temporal impulse responses
(orders 3 and 5) are sampled on a causal grid; the four space-time filters
are the quadrature combinations of the separable components, with the null
direction differing only in the sign of the quadrature (odd × temporal)
term, i.e. in the sign of the implied velocity. -/
noncomputable def motion_filters (nx ny nt : ℕ) (dx dy dt k sigma_c sigma_g θ : ℝ) :
    FilterSet :=
  let xg := filter_grid nx dx true
  let yg := filter_grid ny dy true
  let tg := filter_grid nt dt false
  let se : ℕ → ℕ → ℝ := fun i j => spatial_even sigma_c sigma_g θ (xg i) (yg j)
  let so : ℕ → ℕ → ℝ := fun i j => spatial_odd sigma_c sigma_g θ (xg i) (yg j)
  let g1 : ℕ → ℝ := fun c => temporal_impulse_response (tg c) 3 k
  let g2 : ℕ → ℝ := fun c => temporal_impulse_response (tg c) 5 k
  { even_p := ⟨nx, ny, nt, fun i j c => se i j * g1 c - so i j * g2 c⟩
    odd_p := ⟨nx, ny, nt, fun i j c => so i j * g1 c + se i j * g2 c⟩
    even_n := ⟨nx, ny, nt, fun i j c => se i j * g1 c + so i j * g2 c⟩
    odd_n := ⟨nx, ny, nt, fun i j c => so i j * g1 c - se i j * g2 c⟩ }

/-- Modelled from the spec: `filter_bank` (section 4.5, Filter Bank Builder;
the `motionenergy` module is not in the repository snapshot): one Motion
Filter Set per orientation angle, in the order of the input angles, sharing
the shape, resolution and parameter set. -/
noncomputable def filter_bank (thetas : List ℝ) (nx ny nt : ℕ)
    (dx dy dt k sigma_c sigma_g : ℝ) : List FilterSet :=
  thetas.map (fun θ => motion_filters nx ny nt dx dy dt k sigma_c sigma_g θ)

/-- One filter fits inside a movie when its extent does not exceed the
extent of the movie along any axis. -/
def Array3.fits_in (f m : Array3) : Bool :=
  decide (f.nx ≤ m.nx) && decide (f.ny ≤ m.ny) && decide (f.nt ≤ m.nt)

/-- A filter set fits inside a movie when all four of its filters do. -/
def FilterSet.fits_in (fs : FilterSet) (m : Array3) : Bool :=
  fs.even_p.fits_in m && fs.odd_p.fits_in m &&
    fs.even_n.fits_in m && fs.odd_n.fits_in m

/-- Preferred-direction quadrature energy at one sample: square of the
even-preferred convolution response plus square of the odd-preferred
response. -/
noncomputable def pref_energy (m : Array3) (fs : FilterSet) (i j c : ℕ) : ℝ :=
  (conv3 m fs.even_p).data i j c ^ 2 + (conv3 m fs.odd_p).data i j c ^ 2

/-- Null-direction quadrature energy at one sample: square of the even-null
convolution response plus square of the odd-null response. -/
noncomputable def null_energy (m : Array3) (fs : FilterSet) (i j c : ℕ) : ℝ :=
  (conv3 m fs.even_n).data i j c ^ 2 + (conv3 m fs.odd_n).data i j c ^ 2

/-- Opponent motion energy field: preferred energy minus null energy,
sample by sample, with the shape of the stimulus movie. -/
noncomputable def opponent_energy (m : Array3) (fs : FilterSet) : Array3 :=
  ⟨m.nx, m.ny, m.nt, fun i j c => pref_energy m fs i j c - null_energy m fs i j c⟩

/-- Modelled from the spec: `apply_motion_energy_filters` on a single filter
set (sections 4.6 and 7; the `motionenergy` module is not in the repository
snapshot).  A filter whose extent exceeds the extent of the movie along an axis
is invalid and the call fails fast; otherwise the opponent motion energy
field is returned. -/
noncomputable def apply_motion_energy_filters (m : Array3) (fs : FilterSet) :
    Except String Array3 :=
  if fs.fits_in m then Except.ok (opponent_energy m fs)
  else Except.error "filter extent exceeds movie extent"

/-- Modelled from the spec: `apply_motion_energy_filters` on a Filter Bank,
vectorized over the leading bank dimension (section 4.6): one energy field
per bank element, in bank order; the call fails when any element fails. -/
noncomputable def apply_filter_bank (m : Array3) :
    List FilterSet → Except String (List Array3)
  | [] => Except.ok []
  | fs :: rest =>
    match apply_motion_energy_filters m fs with
    | Except.error e => Except.error e
    | Except.ok out =>
      match apply_filter_bank m rest with
      | Except.error e => Except.error e
      | Except.ok outs => Except.ok (out :: outs)

/-- Minimum of a list of reals, 0 on the empty list (the numpy minimum of a
nonempty array; `centered_colormap` guards the empty case). -/
def list_min : List ℝ → ℝ
  | [] => 0
  | x :: xs => xs.foldl min x

/-- Maximum of a list of reals, 0 on the empty list. -/
def list_max : List ℝ → ℝ
  | [] => 0
  | x :: xs => xs.foldl max x

/-- The colormap keyword dictionary built by `centered_colormap` in the
notebook: bounds `vmin`, `vmax` and the colormap name. -/
structure ColormapSpec where
  vmin : ℝ
  vmax : ℝ
  cmap : String

/-- `centered_colormap` from the notebook: `lim` is the largest absolute
value of the minimum and maximum of the data, and the returned dictionary sets
`vmin = -lim`, `vmax = +lim`, `cmap = "icefire"`.  The empty case (where
the numpy minimum would raise) returns none. -/
def centered_colormap (data : List ℝ) : Option ColormapSpec :=
  match data with
  | [] => none
  | x :: xs =>
    let lim := max |list_min (x :: xs)| |list_max (x :: xs)|
    some ⟨-lim, lim, "icefire"⟩

/-- A 1×1×1 movie holding the value 1, used as a concrete stimulus. -/
noncomputable def unit_movie : Array3 := ⟨1, 1, 1, fun _ _ _ => 1⟩

/-- A 1×1×1 all-zero filter. -/
noncomputable def zero_filter : Array3 := ⟨1, 1, 1, fun _ _ _ => 0⟩

/-- A 1×1×1 filter holding the value 1. -/
noncomputable def unit_filter : Array3 := ⟨1, 1, 1, fun _ _ _ => 1⟩

/-- A filter set whose only nonzero filter is the even-null one: the null
energy dominates and the opponent energy is negative. -/
noncomputable def null_only_set : FilterSet :=
  ⟨zero_filter, zero_filter, unit_filter, zero_filter⟩

/-- A filter set whose filters are wider (2 samples) than a 1×1×1 movie. -/
noncomputable def oversized_set : FilterSet :=
  ⟨⟨2, 1, 1, fun _ _ _ => 0⟩, ⟨2, 1, 1, fun _ _ _ => 0⟩,
   ⟨2, 1, 1, fun _ _ _ => 0⟩, ⟨2, 1, 1, fun _ _ _ => 0⟩⟩

/-! ### Helper lemmas -/

lemma foldl_min_le_init (xs : List ℝ) : ∀ x : ℝ, xs.foldl min x ≤ x := by
  induction xs with
  | nil => intro x; simp
  | cons a l ih =>
    intro x
    exact le_trans (ih (min x a)) (min_le_left x a)

lemma foldl_min_le_mem (xs : List ℝ) : ∀ x y : ℝ, y ∈ xs → xs.foldl min x ≤ y := by
  induction xs with
  | nil => intro x y hy; simp at hy
  | cons a l ih =>
    intro x y hy
    rcases List.mem_cons.mp hy with rfl | hy
    · exact le_trans (foldl_min_le_init l (min x y)) (min_le_right x y)
    · exact ih (min x a) y hy

lemma le_foldl_max_init (xs : List ℝ) : ∀ x : ℝ, x ≤ xs.foldl max x := by
  induction xs with
  | nil => intro x; simp
  | cons a l ih =>
    intro x
    exact le_trans (le_max_left x a) (ih (max x a))

lemma le_foldl_max_mem (xs : List ℝ) : ∀ x y : ℝ, y ∈ xs → y ≤ xs.foldl max x := by
  induction xs with
  | nil => intro x y hy; simp at hy
  | cons a l ih =>
    intro x y hy
    rcases List.mem_cons.mp hy with rfl | hy
    · exact le_trans (le_max_right x y) (le_foldl_max_init l (max x y))
    · exact ih (max x a) y hy

lemma list_min_le_mem (data : List ℝ) (y : ℝ) (hy : y ∈ data) : list_min data ≤ y := by
  match data with
  | [] => simp at hy
  | x :: xs =>
    rcases List.mem_cons.mp hy with rfl | hy
    · exact foldl_min_le_init xs y
    · exact foldl_min_le_mem xs x y hy

lemma le_list_max_mem (data : List ℝ) (y : ℝ) (hy : y ∈ data) : y ≤ list_max data := by
  match data with
  | [] => simp at hy
  | x :: xs =>
    rcases List.mem_cons.mp hy with rfl | hy
    · exact le_foldl_max_init xs y
    · exact le_foldl_max_mem xs x y hy

@[simp] lemma gaussian_envelope_neg (y s : ℝ) :
    gaussian_envelope (-y) s = gaussian_envelope y s := by
  unfold gaussian_envelope
  rw [neg_sq]

@[simp] lemma cauchy_fst_neg (u s : ℝ) : (cauchy (-u) s 4).1 = (cauchy u s 4).1 := by
  unfold cauchy
  simp [neg_div, Real.arctan_neg, Real.cos_neg, mul_neg]

/-! ### Claim theorems -/

/-- Claim C2: for every requested 3-D shape (nx, ny, nt) and resolution,
`motion_filters` returns exactly four 3-D arrays, each of exactly the
requested shape; in particular, at shape (64, 64, 25) with resolution
(1/40, 1/40, 1/60) it returns 4 arrays of shape (64, 64, 25). -/
theorem motion_filters_shape_spec :
    (∀ (nx ny nt : ℕ) (dx dy dt k sc sg θ : ℝ),
      (motion_filters nx ny nt dx dy dt k sc sg θ).toList.length = 4 ∧
      (motion_filters nx ny nt dx dy dt k sc sg θ).toList.map Array3.shape =
        List.replicate 4 (nx, ny, nt)) ∧
    (motion_filters 64 64 25 (1 / 40) (1 / 40) (1 / 60) 60 (7 / 20) (1 / 20) 0).toList.map
        Array3.shape = List.replicate 4 (64, 64, 25) :=
  ⟨fun _ _ _ _ _ _ _ _ _ _ => ⟨rfl, rfl⟩, rfl⟩

/-- Claim C4: for every real t, order in a pair of Poisson orders 3 and 5 and
latency constant k, `temporal_impulse_response t order k` equals
(kt)^order · exp(−kt) · (1/order! − (kt)²/(order+2)!) for t ≥ 0 and equals 0
for t < 0 (the impulse response is causal). -/
theorem temporal_impulse_response_spec (t k : ℝ) (order : ℕ)
    (ho : order = 3 ∨ order = 5) :
    (0 ≤ t → temporal_impulse_response t order k =
      (k * t) ^ order * Real.exp (-(k * t)) *
        (1 / (Nat.factorial order : ℝ) - (k * t) ^ 2 / (Nat.factorial (order + 2) : ℝ))) ∧
    (t < 0 → temporal_impulse_response t order k = 0) := by
  constructor
  · intro h
    rw [temporal_impulse_response, if_neg (not_lt.mpr h)]
  · intro h
    rw [temporal_impulse_response, if_pos h]

/-- Witness for C4: at t = −1, order 3, k = 2 the response is 0. -/
theorem temporal_impulse_response_spec_witness :
    temporal_impulse_response (-1) 3 2 = 0 :=
  (temporal_impulse_response_spec (-1) 2 3 (Or.inl rfl)).2 (by norm_num)

/-- Claim C5: for every σ_c > 0, `cauchy` at x = 0 (order 4) yields the pair
(1, 0): α = arctan(0/σ_c) = 0 with no singularity, the even filter attains 1
and the odd filter attains 0. -/
theorem cauchy_zero_spec (sigma_c : ℝ) (h : 0 < sigma_c) :
    cauchy 0 sigma_c 4 = (1, 0) := by
  unfold cauchy
  simp

/-- Witness for C5: at σ_c = 1 the pair is (1, 0). -/
theorem cauchy_zero_spec_witness : cauchy 0 1 4 = (1, 0) :=
  cauchy_zero_spec 1 one_pos

/-- Claim C8: rotating the θ = 0 2-D spatial filter (Cauchy pair times
Gaussian envelope) by 180° reproduces the θ = 0 filter up to reflection of
the selective axis: both rotated components equal the θ = 0 components
evaluated at the reflected point (−x, y), and the even component is in fact
reproduced exactly. -/
theorem spatial_rotation_180_spec (sigma_c sigma_g x y : ℝ) :
    spatial_even sigma_c sigma_g Real.pi x y = spatial_even sigma_c sigma_g 0 (-x) y ∧
    spatial_odd sigma_c sigma_g Real.pi x y = spatial_odd sigma_c sigma_g 0 (-x) y ∧
    spatial_even sigma_c sigma_g Real.pi x y = spatial_even sigma_c sigma_g 0 x y := by
  refine ⟨?_, ?_, ?_⟩ <;>
    simp [spatial_even, spatial_odd, Real.cos_pi, Real.sin_pi]

/-- Claim C9: for every non-empty data list, `centered_colormap` returns
bounds with vmin = −vmax, vmax = max(|min data|, |max data|) ≥ 0, and every
element of the data inside [vmin, vmax] (the color scale is symmetric about
zero and covers the data). -/
theorem centered_colormap_spec (data : List ℝ) (h : data ≠ []) :
    ∃ s : ColormapSpec, centered_colormap data = some s ∧
      s.vmin = -s.vmax ∧
      s.vmax = max |list_min data| |list_max data| ∧
      0 ≤ s.vmax ∧
      ∀ y ∈ data, s.vmin ≤ y ∧ y ≤ s.vmax := by
  match data with
  | [] => exact absurd rfl h
  | x :: xs =>
    refine ⟨_, rfl, rfl, rfl, le_trans (abs_nonneg _) (le_max_left _ _), ?_⟩
    intro y hy
    constructor
    · calc -(max |list_min (x :: xs)| |list_max (x :: xs)|)
          ≤ -|list_min (x :: xs)| := neg_le_neg (le_max_left _ _)
        _ ≤ list_min (x :: xs) := neg_abs_le _
        _ ≤ y := list_min_le_mem _ y hy
    · calc y ≤ list_max (x :: xs) := le_list_max_mem _ y hy
        _ ≤ |list_max (x :: xs)| := le_abs_self _
        _ ≤ max |list_min (x :: xs)| |list_max (x :: xs)| := le_max_right _ _

/-- Witness for C9: the data list [1, −2]. -/
theorem centered_colormap_spec_witness :
    ∃ s : ColormapSpec, centered_colormap [1, -2] = some s ∧
      s.vmin = -s.vmax ∧
      s.vmax = max |list_min [1, -2]| |list_max [1, -2]| ∧
      0 ≤ s.vmax ∧
      ∀ y ∈ ([1, -2] : List ℝ), s.vmin ≤ y ∧ y ≤ s.vmax :=
  centered_colormap_spec [1, -2] (by simp)

/-- Claim C1: for every stimulus movie and filter set (that fits), the engine
returns the field formed by convolving the movie with each of the four
component filters, squaring and summing the preferred quadrature pair and
the null quadrature pair, and subtracting null energy from preferred energy;
both energies are pointwise ≥ 0, and the difference can be negative without
being an error (a concrete such case is exhibited). -/
theorem apply_motion_energy_filters_spec :
    (∀ (m : Array3) (fs : FilterSet), fs.fits_in m = true →
      ∃ out, apply_motion_energy_filters m fs = Except.ok out ∧
        ∀ i j c : ℕ,
          out.data i j c = pref_energy m fs i j c - null_energy m fs i j c ∧
          pref_energy m fs i j c =
            (conv3 m fs.even_p).data i j c ^ 2 + (conv3 m fs.odd_p).data i j c ^ 2 ∧
          null_energy m fs i j c =
            (conv3 m fs.even_n).data i j c ^ 2 + (conv3 m fs.odd_n).data i j c ^ 2 ∧
          0 ≤ pref_energy m fs i j c ∧ 0 ≤ null_energy m fs i j c) ∧
    (∃ (m : Array3) (fs : FilterSet) (out : Array3),
      apply_motion_energy_filters m fs = Except.ok out ∧ out.data 0 0 0 < 0) := by
  constructor
  · intro m fs hfit
    refine ⟨opponent_energy m fs, ?_, ?_⟩
    · rw [apply_motion_energy_filters, if_pos hfit]
    · intro i j c
      exact ⟨rfl, rfl, rfl,
        add_nonneg (sq_nonneg _) (sq_nonneg _),
        add_nonneg (sq_nonneg _) (sq_nonneg _)⟩
  · refine ⟨unit_movie, null_only_set, opponent_energy unit_movie null_only_set, ?_, ?_⟩
    · rw [apply_motion_energy_filters, if_pos (by rfl)]
    · simp [opponent_energy, pref_energy, null_energy, conv3, unit_movie,
        unit_filter, zero_filter, null_only_set, Array3.pad]
      norm_num [Finset.filter_singleton]

/-- Witness for C1: the 1×1×1 unit movie with the null-only filter set. -/
theorem apply_motion_energy_filters_spec_witness :
    ∃ out, apply_motion_energy_filters unit_movie null_only_set = Except.ok out ∧
      ∀ i j c : ℕ,
        out.data i j c = pref_energy unit_movie null_only_set i j c -
          null_energy unit_movie null_only_set i j c ∧
        pref_energy unit_movie null_only_set i j c =
          (conv3 unit_movie null_only_set.even_p).data i j c ^ 2 +
            (conv3 unit_movie null_only_set.odd_p).data i j c ^ 2 ∧
        null_energy unit_movie null_only_set i j c =
          (conv3 unit_movie null_only_set.even_n).data i j c ^ 2 +
            (conv3 unit_movie null_only_set.odd_n).data i j c ^ 2 ∧
        0 ≤ pref_energy unit_movie null_only_set i j c ∧
        0 ≤ null_energy unit_movie null_only_set i j c :=
  apply_motion_energy_filters_spec.1 unit_movie null_only_set (by rfl)

/-- Claim C3: the energy field returned for a fitting filter set has the
shape of the stimulus movie; applied to a Filter Bank, the result has one energy
field per bank element, each of the shape of the stimulus. -/
theorem apply_shape_spec :
    (∀ (m : Array3) (fs : FilterSet), fs.fits_in m = true →
      ∃ out, apply_motion_energy_filters m fs = Except.ok out ∧
        out.shape = m.shape) ∧
    (∀ (m : Array3) (bank : List FilterSet),
      (∀ fs ∈ bank, fs.fits_in m = true) →
      ∃ outs, apply_filter_bank m bank = Except.ok outs ∧
        outs.length = bank.length ∧
        outs.map Array3.shape = List.replicate bank.length m.shape) := by
  constructor
  · intro m fs hfit
    exact ⟨opponent_energy m fs, by rw [apply_motion_energy_filters, if_pos hfit], rfl⟩
  · intro m bank hbank
    induction bank with
    | nil => exact ⟨[], rfl, rfl, rfl⟩
    | cons fs rest ih =>
      have hfs : fs.fits_in m = true := hbank fs (List.mem_cons_self fs rest)
      obtain ⟨outs, houts, hlen, hmap⟩ :=
        ih (fun g hg => hbank g (List.mem_cons_of_mem _ hg))
      refine ⟨opponent_energy m fs :: outs, ?_, by simp [hlen], ?_⟩
      · rw [apply_filter_bank, apply_motion_energy_filters, if_pos hfs, houts]
      · simp [hmap, hlen, List.replicate_succ]
        rfl

/-- Witness for C3: the 1×1×1 unit movie with a one-element bank. -/
theorem apply_shape_spec_witness :
    ∃ outs, apply_filter_bank unit_movie [null_only_set] = Except.ok outs ∧
      outs.length = ([null_only_set] : List FilterSet).length ∧
      outs.map Array3.shape =
        List.replicate ([null_only_set] : List FilterSet).length unit_movie.shape :=
  apply_shape_spec.2 unit_movie [null_only_set]
    (fun fs hfs => by rw [List.mem_singleton] at hfs; subst hfs; rfl)

/-- Claim C6: `filter_bank` returns one Motion Filter Set per requested
angle, in the order of the input angles, and all elements have identical
array shapes (each is four arrays of the shared requested shape). -/
theorem filter_bank_spec (thetas : List ℝ) (nx ny nt : ℕ)
    (dx dy dt k sc sg : ℝ) :
    (filter_bank thetas nx ny nt dx dy dt k sc sg).length = thetas.length ∧
    (∀ i (h1 : i < (filter_bank thetas nx ny nt dx dy dt k sc sg).length)
        (h2 : i < thetas.length),
      (filter_bank thetas nx ny nt dx dy dt k sc sg).get ⟨i, h1⟩ =
        motion_filters nx ny nt dx dy dt k sc sg (thetas.get ⟨i, h2⟩)) ∧
    (∀ fs ∈ filter_bank thetas nx ny nt dx dy dt k sc sg,
      fs.toList.map Array3.shape = List.replicate 4 (nx, ny, nt)) := by
  refine ⟨by simp [filter_bank], ?_, ?_⟩
  · intro i h1 h2
    simp [filter_bank]
  · intro fs hfs
    rw [filter_bank, List.mem_map] at hfs
    obtain ⟨θ, hθ, rfl⟩ := hfs
    rfl

/-- Witness for C6: the one-angle bank at θ = 0 with shape (2, 3, 4). -/
theorem filter_bank_spec_witness :
    (filter_bank [0] 2 3 4 1 1 1 1 1 1).get ⟨0, by simp [filter_bank]⟩ =
      motion_filters 2 3 4 1 1 1 1 1 1 0 := by
  have h := (filter_bank_spec [0] 2 3 4 1 1 1 1 1 1).2.1 0
    (by simp [filter_bank]) (by simp)
  exact h

/-- Claim C7: when the extent of some component filter exceeds the
extent of the movie along the same axis, `apply_motion_energy_filters` fails fast with an error
instead of returning a field; with compatible shapes a result is produced no
matter which resolution the filters were built at (a resolution mismatch is
invisible to the engine and never raises). -/
theorem apply_fail_fast_spec :
    (∀ (m : Array3) (fs : FilterSet),
      (∃ f ∈ fs.toList, m.nx < f.nx ∨ m.ny < f.ny ∨ m.nt < f.nt) →
      ∃ e, apply_motion_energy_filters m fs = Except.error e) ∧
    (∀ (m : Array3) (nx ny nt : ℕ) (dx dy dt k sc sg θ : ℝ),
      nx ≤ m.nx → ny ≤ m.ny → nt ≤ m.nt →
      ∃ out, apply_motion_energy_filters m
        (motion_filters nx ny nt dx dy dt k sc sg θ) = Except.ok out) := by
  constructor
  · rintro m fs ⟨f, hf, hex⟩
    have hfit : fs.fits_in m = false := by
      cases hfitb : fs.fits_in m
      · rfl
      · exfalso
        unfold FilterSet.fits_in Array3.fits_in at hfitb
        simp only [Bool.and_eq_true, decide_eq_true_eq] at hfitb
        simp only [FilterSet.toList, List.mem_cons, List.not_mem_nil, or_false] at hf
        rcases hf with rfl | rfl | rfl | rfl <;> rcases hex with h | h | h <;> omega
    exact ⟨"filter extent exceeds movie extent",
      by rw [apply_motion_energy_filters]; simp [hfit]⟩
  · intro m nx ny nt dx dy dt k sc sg θ h1 h2 h3
    have hfit : (motion_filters nx ny nt dx dy dt k sc sg θ).fits_in m = true := by
      unfold FilterSet.fits_in Array3.fits_in motion_filters
      simp [h1, h2, h3]
    exact ⟨opponent_energy m _, by rw [apply_motion_energy_filters, if_pos hfit]⟩

/-- Witness for C7: an oversized filter set is rejected on the 1×1×1 movie,
while a fitting set built at an arbitrary resolution is accepted. -/
theorem apply_fail_fast_spec_witness :
    (∃ e, apply_motion_energy_filters unit_movie oversized_set = Except.error e) ∧
    (∃ out, apply_motion_energy_filters unit_movie
      (motion_filters 1 1 1 (1 / 40) (1 / 40) (1 / 60) 60 (7 / 20) (1 / 20) 0) =
        Except.ok out) :=
  ⟨apply_fail_fast_spec.1 unit_movie oversized_set
      ⟨oversized_set.even_p, by simp [FilterSet.toList],
        Or.inl (by norm_num [unit_movie, oversized_set])⟩,
   apply_fail_fast_spec.2 unit_movie 1 1 1 (1 / 40) (1 / 40) (1 / 60) 60 (7 / 20)
      (1 / 20) 0 le_rfl le_rfl le_rfl⟩

end MotionEnergy
